import Mathlib

set_option maxHeartbeats 1000000

namespace MesaDebug

/- Shallow embedding of src/mesalib/src/mesa/main/errors.c, the Mesa debug
   output subsystem: filter namespaces, copy-on-write debug group stack,
   ring-buffer message log and the dispatch entry points. Machine integers
   are modelled as Nat. Heap allocation outcomes are passed in explicitly
   as Bool flags, pointers to debug groups as numeric arena identifiers,
   and the static out-of-memory string by a dedicated constructor so that
   the pointer identity test in debug_message_clear keeps its meaning. -/

/-- Severity index of GL_DEBUG_SEVERITY_LOW, following the order of the
debug_severity_enums table in errors.c. -/
def MESA_DEBUG_SEVERITY_LOW : Nat := 0

/-- Severity index of GL_DEBUG_SEVERITY_MEDIUM. -/
def MESA_DEBUG_SEVERITY_MEDIUM : Nat := 1

/-- Severity index of GL_DEBUG_SEVERITY_HIGH. -/
def MESA_DEBUG_SEVERITY_HIGH : Nat := 2

/-- Severity index of GL_DEBUG_SEVERITY_NOTIFICATION. -/
def MESA_DEBUG_SEVERITY_NOTIFICATION : Nat := 3

/-- Number of severity levels, used as the wildcard marker. -/
def MESA_DEBUG_SEVERITY_COUNT : Nat := 4

/-- Source index of GL_DEBUG_SOURCE_API, following debug_source_enums. -/
def MESA_DEBUG_SOURCE_API : Nat := 0

/-- Source index of GL_DEBUG_SOURCE_WINDOW_SYSTEM. -/
def MESA_DEBUG_SOURCE_WINDOW_SYSTEM : Nat := 1

/-- Source index of GL_DEBUG_SOURCE_SHADER_COMPILER. -/
def MESA_DEBUG_SOURCE_SHADER_COMPILER : Nat := 2

/-- Source index of GL_DEBUG_SOURCE_THIRD_PARTY. -/
def MESA_DEBUG_SOURCE_THIRD_PARTY : Nat := 3

/-- Source index of GL_DEBUG_SOURCE_APPLICATION. -/
def MESA_DEBUG_SOURCE_APPLICATION : Nat := 4

/-- Source index of GL_DEBUG_SOURCE_OTHER. -/
def MESA_DEBUG_SOURCE_OTHER : Nat := 5

/-- Number of debug sources. -/
def MESA_DEBUG_SOURCE_COUNT : Nat := 6

/-- Type index of GL_DEBUG_TYPE_ERROR, following debug_type_enums. -/
def MESA_DEBUG_TYPE_ERROR : Nat := 0

/-- Type index of GL_DEBUG_TYPE_DEPRECATED_BEHAVIOR. -/
def MESA_DEBUG_TYPE_DEPRECATED : Nat := 1

/-- Type index of GL_DEBUG_TYPE_UNDEFINED_BEHAVIOR. -/
def MESA_DEBUG_TYPE_UNDEFINED : Nat := 2

/-- Type index of GL_DEBUG_TYPE_PORTABILITY. -/
def MESA_DEBUG_TYPE_PORTABILITY : Nat := 3

/-- Type index of GL_DEBUG_TYPE_PERFORMANCE. -/
def MESA_DEBUG_TYPE_PERFORMANCE : Nat := 4

/-- Type index of GL_DEBUG_TYPE_OTHER. -/
def MESA_DEBUG_TYPE_OTHER : Nat := 5

/-- Type index of GL_DEBUG_TYPE_MARKER. -/
def MESA_DEBUG_TYPE_MARKER : Nat := 6

/-- Type index of GL_DEBUG_TYPE_PUSH_GROUP. -/
def MESA_DEBUG_TYPE_PUSH_GROUP : Nat := 7

/-- Type index of GL_DEBUG_TYPE_POP_GROUP. -/
def MESA_DEBUG_TYPE_POP_GROUP : Nat := 8

/-- Number of debug types. -/
def MESA_DEBUG_TYPE_COUNT : Nat := 9

/-- The NUL character used as C string terminator. -/
def nulChar : Char := Char.ofNat 0

/-- Content of the static C array out_of_memory in errors.c, as characters
without the implicit terminator. -/
def out_of_memory : List Char := "Debugging error: out of memory".toList

/-- Length of a C string held in a list: number of characters before the
first NUL, modelling strlen. -/
def cstrlen (l : List Char) : Nat :=
  (l.takeWhile (fun c => c != nulChar)).length

/-- Result of strncpy from src into a fresh buffer of n characters: at most
n characters of src up to its first NUL, the remainder zero filled. -/
def strncpyList (src : List Char) (n : Nat) : List Char :=
  let t := src.takeWhile (fun c => c != nulChar)
  t.take n ++ List.replicate (n - t.length) nulChar

/-- A namespace element: per-id severity bitmask override, after struct
gl_debug_element. The linked list node is represented by list membership. -/
structure GLDebugElement where
  ID : Nat
  State : Nat
deriving DecidableEq

/-- A filter namespace, after struct gl_debug_namespace: an override list
plus the default severity bitmask. -/
structure GLDebugNamespace where
  Elements : List GLDebugElement
  DefaultState : Nat
deriving DecidableEq

/-- First element of the list with the given ID, modelling the find loops
over the Elements list in errors.c. -/
def findElem : List GLDebugElement → Nat → Option GLDebugElement
  | [], _ => none
  | e :: rest, i => if e.ID = i then some e else findElem rest i

/-- Remove the first element with the given ID, modelling remove_from_list
plus free on the found node; no change when the ID is absent. -/
def removeFirst : List GLDebugElement → Nat → List GLDebugElement
  | [], _ => []
  | e :: rest, i => if e.ID = i then rest else e :: removeFirst rest i

/-- Overwrite the State of the first element with the given ID, modelling
the in-place elem update; no change when the ID is absent. -/
def setFirst : List GLDebugElement → Nat → Nat → List GLDebugElement
  | [], _, _ => []
  | e :: rest, i, st =>
      if e.ID = i then { e with State := st } :: rest else e :: setFirst rest i st

/-- Initial namespace built by debug_namespace_init: empty override list,
HIGH and MEDIUM severities enabled by default. -/
def debug_namespace_init : GLDebugNamespace :=
  { Elements := [],
    DefaultState :=
      (1 <<< MESA_DEBUG_SEVERITY_HIGH) ||| (1 <<< MESA_DEBUG_SEVERITY_MEDIUM) }

/-- Deep copy of a namespace, after debug_namespace_copy. The per-element
malloc outcomes are collapsed into one flag: on any failure the partially
built destination is cleared and the whole copy fails with no result. -/
def debug_namespace_copy (allocOk : Bool) (src : GLDebugNamespace) :
    Option GLDebugNamespace :=
  if allocOk then
    some { Elements := src.Elements.map (fun e => { ID := e.ID, State := e.State }),
           DefaultState := src.DefaultState }
  else
    none

/-- Set the state of one id in the namespace, after debug_namespace_set.
Returns false exactly when a new element had to be allocated and the
allocation failed; the namespace is unchanged in that case. -/
def debug_namespace_set (allocOk : Bool) (ns : GLDebugNamespace)
    (id : Nat) (enabled : Bool) : Bool × GLDebugNamespace :=
  let state : Nat := if enabled then (1 <<< MESA_DEBUG_SEVERITY_COUNT) - 1 else 0
  if ns.DefaultState = state then
    (true, { ns with Elements := removeFirst ns.Elements id })
  else
    match findElem ns.Elements id with
    | some _ => (true, { ns with Elements := setFirst ns.Elements id state })
    | none =>
        if allocOk then
          (true, { ns with Elements := ns.Elements ++ [{ ID := id, State := state }] })
        else
          (false, ns)

/-- Mask of the 32 bits of a GLbitfield, for the C bitwise complement. -/
def UINT32_MASK : Nat := 4294967295

/-- Bitwise and of x with the 32-bit complement of mask. -/
def maskAndNot (x mask : Nat) : Nat := x &&& (UINT32_MASK ^^^ mask)

/-- Set the default state of the namespace for one severity, or for all of
them when severity is MESA_DEBUG_SEVERITY_COUNT, after
debug_namespace_set_all. The foreach_s loop that updates every element and
unlinks those that reach the new default is rendered as map then filter. -/
def debug_namespace_set_all (ns : GLDebugNamespace)
    (severity : Nat) (enabled : Bool) : GLDebugNamespace :=
  if severity = MESA_DEBUG_SEVERITY_COUNT then
    { Elements := [],
      DefaultState := if enabled then (1 <<< severity) - 1 else 0 }
  else
    let mask := 1 <<< severity
    let val := if enabled then mask else 0
    let newDefault := maskAndNot ns.DefaultState mask ||| val
    { DefaultState := newDefault,
      Elements :=
        (ns.Elements.map (fun e => { e with State := maskAndNot e.State mask ||| val })).filter
          (fun e => e.State != newDefault) }

/-- State of one id at one severity, after debug_namespace_get: the bit of
the first matching element, or of the default state when none matches. -/
def debug_namespace_get (ns : GLDebugNamespace) (id severity : Nat) : Bool :=
  let state :=
    match findElem ns.Elements id with
    | some e => e.State
    | none => ns.DefaultState
  (state &&& (1 <<< severity)) != 0

/-- Reference held by the message field of a debug message: NULL, an owned
heap copy of the text, or the shared static out_of_memory buffer. The
constructor distinction models the pointer identity test against
out_of_memory in debug_message_clear. -/
inductive MessageRef where
  | null
  | owned (text : List Char)
  | oomSentinel
deriving DecidableEq

/-- A buffered debug message, after struct gl_debug_message. -/
structure GLDebugMessage where
  source : Nat
  type : Nat
  id : Nat
  severity : Nat
  length : Nat
  message : MessageRef
deriving DecidableEq

/-- Process-wide dynamic id state: the NextDynamicID counter plus the
static oom_msg_id slot inside debug_message_store (zero when unassigned). -/
structure IdState where
  NextDynamicID : Nat
  oomMsgId : Nat
deriving DecidableEq

/-- Assign the next dynamic id to a zero slot, after debug_get_id. Returns
the slot content and the updated counter. -/
def debug_get_id (slot : Nat) (next : Nat) : Nat × Nat :=
  if slot = 0 then (next, next + 1) else (slot, next)

/-- Clear a message slot, after debug_message_clear. The Bool records
whether free was invoked on the stored pointer, which the code does exactly
when the pointer is not the static out_of_memory buffer. -/
def debug_message_clear (msg : GLDebugMessage) : Bool × GLDebugMessage :=
  (msg.message != MessageRef.oomSentinel,
   { msg with message := MessageRef.null, length := 0 })

/-- Store a message into a slot, after debug_message_store. On allocation
success the text is a fresh null-terminated copy of len characters and the
stored length counts the terminator. On failure the shared out_of_memory
sentinel is substituted, with forced source, type and severity and the
lazily assigned oom_msg_id. -/
def debug_message_store (allocOk : Bool) (source type id severity : Nat)
    (len : Nat) (buf : List Char) (ids : IdState) : GLDebugMessage × IdState :=
  if allocOk then
    ({ source := source, type := type, id := id, severity := severity,
       length := len + 1,
       message := MessageRef.owned (strncpyList buf len ++ [nulChar]) }, ids)
  else
    let r := debug_get_id ids.oomMsgId ids.NextDynamicID
    ({ source := MESA_DEBUG_SOURCE_OTHER, type := MESA_DEBUG_TYPE_ERROR,
       id := r.1, severity := MESA_DEBUG_SEVERITY_HIGH,
       length := cstrlen out_of_memory + 1,
       message := MessageRef.oomSentinel },
     { NextDynamicID := r.2, oomMsgId := r.1 })

/-- Characters reachable through a message reference, used when a stored
message is handed back to log_msg or strncpy. The static out_of_memory
buffer carries its terminator. -/
def bufOf : MessageRef → List Char
  | MessageRef.null => []
  | MessageRef.owned l => l
  | MessageRef.oomSentinel => out_of_memory ++ [nulChar]

/-- A zeroed message slot, as left by CALLOC_STRUCT or debug_message_clear
plus zeroed metadata. -/
def emptyMessage : GLDebugMessage :=
  { source := 0, type := 0, id := 0, severity := 0, length := 0,
    message := MessageRef.null }

/-- The ring-buffer message log, after struct gl_debug_log. The Messages
array is a function from slot index to message; the capacity
MAX_DEBUG_LOGGED_MESSAGES is passed to each operation. -/
structure GLDebugLog where
  Messages : Nat → GLDebugMessage
  NextMessage : Nat
  NumMessages : Nat

/-- The zeroed log of a fresh debug state. -/
def emptyLog : GLDebugLog :=
  { Messages := fun _ => emptyMessage, NextMessage := 0, NumMessages := 0 }

/-- Enqueue a message into the log, after debug_log_message: dropped
without effect when the log holds cap messages, otherwise stored into the
next empty ring slot. -/
def debug_log_message (cap : Nat) (allocOk : Bool) (log : GLDebugLog)
    (ids : IdState) (source type id severity : Nat) (len : Nat)
    (buf : List Char) : GLDebugLog × IdState :=
  if log.NumMessages = cap then
    (log, ids)
  else
    let nextEmpty := (log.NextMessage + log.NumMessages) % cap
    let r := debug_message_store allocOk source type id severity len buf ids
    ({ Messages := fun i => if i = nextEmpty then r.1 else log.Messages i,
       NextMessage := log.NextMessage,
       NumMessages := log.NumMessages + 1 }, r.2)

/-- Oldest message of the log without removal, after debug_fetch_message. -/
def debug_fetch_message (log : GLDebugLog) : Option GLDebugMessage :=
  if log.NumMessages ≠ 0 then some (log.Messages log.NextMessage) else none

/-- Body of the delete loop of debug_delete_messages, already clamped: one
iteration clears the oldest slot and advances the head. -/
def deleteLoop (cap : Nat) : Nat → GLDebugLog → GLDebugLog
  | 0, log => log
  | n + 1, log =>
      deleteLoop cap n
        { Messages := fun i =>
            if i = log.NextMessage then (debug_message_clear (log.Messages i)).2
            else log.Messages i,
          NextMessage := (log.NextMessage + 1) % cap,
          NumMessages := log.NumMessages - 1 }

/-- Delete the oldest count messages, after debug_delete_messages, where
count is first clamped to the number of buffered messages. -/
def debug_delete_messages (cap : Nat) (count : Nat) (log : GLDebugLog) :
    GLDebugLog :=
  deleteLoop cap (min count log.NumMessages) log

/-- The buffered messages in drain order: NumMessages entries starting at
NextMessage, indices taken modulo cap. -/
def logMessages (cap : Nat) (log : GLDebugLog) : List GLDebugMessage :=
  (List.range log.NumMessages).map (fun i => log.Messages ((log.NextMessage + i) % cap))

/-- Well-formedness of a log for ring arithmetic: the head index is inside
the array and the live count does not exceed the capacity. -/
def LogWF (cap : Nat) (log : GLDebugLog) : Prop :=
  log.NextMessage < cap ∧ log.NumMessages ≤ cap

/-- A debug group: the full grid of filter namespaces indexed by source and
type, after struct gl_debug_group. Only indices below the respective counts
are ever read. -/
def GLDebugGroup := Nat → Nat → GLDebugNamespace

/-- The group built by debug_create: every namespace initialized. -/
def debug_group_init : GLDebugGroup := fun _ _ => debug_namespace_init

/-- Context debug state, after struct gl_debug_state. Group pointers are
arena identifiers: Groups maps a stack slot to the identifier it references
(none for NULL), store maps identifiers to group contents, and nextGroupId
is the next fresh identifier, so pointer equality between slots is
identifier equality. -/
structure DebugState where
  Callback : Bool
  DebugOutput : Bool
  SyncOutput : Bool
  Groups : Nat → Option Nat
  store : Nat → GLDebugGroup
  nextGroupId : Nat
  GroupMessages : Nat → GLDebugMessage
  GroupStackDepth : Nat
  Log : GLDebugLog

/-- Freshly allocated debug state, after debug_create: zeroed flags and
slots, slot 0 referencing an initialized group. -/
def debug_create : DebugState :=
  { Callback := false, DebugOutput := false, SyncOutput := false,
    Groups := fun i => if i = 0 then some 0 else none,
    store := fun _ => debug_group_init,
    nextGroupId := 1,
    GroupMessages := fun _ => emptyMessage,
    GroupStackDepth := 0,
    Log := emptyLog }

/-- Whether the top group slot aliases the slot beneath it, after
debug_is_group_read_only: pointer equality between adjacent slots. -/
def debug_is_group_read_only (s : DebugState) : Bool :=
  0 < s.GroupStackDepth &&
    (s.Groups s.GroupStackDepth == s.Groups (s.GroupStackDepth - 1))

/-- Make the top group writable, after debug_make_group_writable: when the
top slot is shared, deep-copy the group into a fresh arena identifier and
point the top slot at it. The malloc of the group and the per-namespace
copy failures are collapsed into the allocOk flag; on failure everything
already copied is unwound and false is returned with the state unchanged.
The none fallback is unreachable from states whose slots up to the depth
are populated. -/
def debug_make_group_writable (allocOk : Bool) (s : DebugState) :
    Bool × DebugState :=
  if !(debug_is_group_read_only s) then
    (true, s)
  else if !allocOk then
    (false, s)
  else
    match s.Groups s.GroupStackDepth with
    | none => (true, s)
    | some g =>
        (true,
         { s with
           Groups := fun i =>
             if i = s.GroupStackDepth then some s.nextGroupId else s.Groups i,
           store := fun g2 =>
             if g2 = s.nextGroupId then s.store g else s.store g2,
           nextGroupId := s.nextGroupId + 1 })

/-- Clear the top group slot, after debug_clear_group: the slot becomes
NULL; when the group was private its heap memory is released, which has no
value-level counterpart in the arena. -/
def debug_clear_group (s : DebugState) : DebugState :=
  { s with
    Groups := fun i => if i = s.GroupStackDepth then none else s.Groups i }

/-- Set the filter state of one source, type, id tuple, after
debug_set_message_enable. The code discards the results of
debug_make_group_writable and debug_namespace_set, which the model renders
by keeping only the state components of both calls. -/
def debug_set_message_enable (allocGroup allocElem : Bool) (s : DebugState)
    (source type id : Nat) (enabled : Bool) : DebugState :=
  let s1 := (debug_make_group_writable allocGroup s).2
  match s1.Groups s1.GroupStackDepth with
  | none => s1
  | some g =>
      let grp := s1.store g
      let ns2 := (debug_namespace_set allocElem (grp source type) id enabled).2
      { s1 with
        store := fun g2 =>
          if g2 = g then
            fun s2 t2 => if s2 = source ∧ t2 = type then ns2 else grp s2 t2
          else s1.store g2 }

/-- Set the filter state across the selected source and type ranges, after
debug_set_message_enable_all: the COUNT value selects the whole range, and
debug_namespace_set_all is applied to each selected cell of the active
group. The result of debug_make_group_writable is again discarded. -/
def debug_set_message_enable_all (allocGroup : Bool) (s : DebugState)
    (source type severity : Nat) (enabled : Bool) : DebugState :=
  let sList := if source = MESA_DEBUG_SOURCE_COUNT then
                 List.range MESA_DEBUG_SOURCE_COUNT else [source]
  let tList := if type = MESA_DEBUG_TYPE_COUNT then
                 List.range MESA_DEBUG_TYPE_COUNT else [type]
  let s1 := (debug_make_group_writable allocGroup s).2
  match s1.Groups s1.GroupStackDepth with
  | none => s1
  | some g =>
      let grp := s1.store g
      { s1 with
        store := fun g2 =>
          if g2 = g then
            fun s2 t2 =>
              if s2 ∈ sList ∧ t2 ∈ tList then
                debug_namespace_set_all (grp s2 t2) severity enabled
              else grp s2 t2
          else s1.store g2 }

/-- Push the group stack, after debug_push_group: the slot above the top is
pointed at the same group as the top, then the depth grows. -/
def debug_push_group (s : DebugState) : DebugState :=
  { s with
    Groups := fun i =>
      if i = s.GroupStackDepth + 1 then s.Groups s.GroupStackDepth
      else s.Groups i,
    GroupStackDepth := s.GroupStackDepth + 1 }

/-- Pop the group stack, after debug_pop_group: clear the top slot, then
shrink the depth. -/
def debug_pop_group (s : DebugState) : DebugState :=
  let s1 := debug_clear_group s
  { s1 with GroupStackDepth := s1.GroupStackDepth - 1 }

/-- The group referenced by a stack slot; a NULL slot yields the initial
group as an arbitrary placeholder, never exercised on populated slots. -/
def groupAtDepth (s : DebugState) (d : Nat) : GLDebugGroup :=
  match s.Groups d with
  | some g => s.store g
  | none => debug_group_init

/-- Filter answer observed against the group referenced at one stack depth,
combining the namespace grid lookup with debug_namespace_get. -/
def getAtDepth (s : DebugState) (d source type id severity : Nat) : Bool :=
  debug_namespace_get (groupAtDepth s d source type) id severity

/-- Whether a message is enabled, after debug_is_message_enabled: the
DebugOutput flag gates the namespace lookup in the active group. -/
def debug_is_message_enabled (s : DebugState)
    (source type id severity : Nat) : Bool :=
  s.DebugOutput && getAtDepth s s.GroupStackDepth source type id severity

/-- One mutation of the active filter configuration, covering the two
mutating entry points over the group stack. -/
inductive FilterMutation where
  | set (source type id : Nat) (enabled : Bool)
  | setAll (source type severity : Nat) (enabled : Bool)

/-- Apply a filter mutation through the corresponding entry point. -/
def applyMutation (allocGroup allocElem : Bool) (m : FilterMutation)
    (s : DebugState) : DebugState :=
  match m with
  | FilterMutation.set src ty id en =>
      debug_set_message_enable allocGroup allocElem s src ty id en
  | FilterMutation.setAll src ty sev en =>
      debug_set_message_enable_all allocGroup s src ty sev en

/-- Errors reported through the context error channel. -/
inductive GLError where
  | INVALID_ENUM
  | INVALID_VALUE
  | INVALID_OPERATION
  | STACK_OVERFLOW
  | STACK_UNDERFLOW
  | OUT_OF_MEMORY
deriving DecidableEq

/-- A submission into the dispatch core: the tuple handed to log_msg, which
the active sink (callback or log) receives when the message is enabled. -/
structure DispatchEvent where
  source : Nat
  type : Nat
  id : Nat
  severity : Nat
  len : Nat
  buf : List Char
deriving DecidableEq

/-- Dispatch one message, after log_msg: a disabled message is a no-op, an
installed callback consumes it synchronously with no retained state, and
otherwise it is enqueued into the log. -/
def log_msg (cap : Nat) (allocLog : Bool) (s : DebugState) (ids : IdState)
    (source type id severity : Nat) (len : Nat) (buf : List Char) :
    DebugState × IdState :=
  if !(debug_is_message_enabled s source type id severity) then
    (s, ids)
  else if s.Callback then
    (s, ids)
  else
    let r := debug_log_message cap allocLog s.Log ids source type id severity len buf
    ({ s with Log := r.1 }, r.2)

/-- Result of a push or pop entry point: updated state, updated global id
state, the dispatch submissions it made, and the reported error if any. -/
structure PushPopResult where
  state : DebugState
  ids : IdState
  events : List DispatchEvent
  error : Option GLError

/-- Push a debug group, after _mesa_PushDebugGroup. Sources are already at
mesa index level, so the two scoping-capable GL sources are APPLICATION and
THIRD_PARTY. A negative length means the text is NUL terminated. The
maximum stack depth and maximum message length are the header constants
MAX_DEBUG_GROUP_STACK_DEPTH and MAX_DEBUG_MESSAGE_LENGTH passed in. The
pending slot copy uses allocStore; a log enqueue uses allocLog. -/
def mesa_PushDebugGroup (maxDepth maxMsgLen cap : Nat)
    (allocStore allocLog : Bool) (source id : Nat) (length : Int)
    (message : List Char) (s : DebugState) (ids : IdState) : PushPopResult :=
  if maxDepth - 1 ≤ s.GroupStackDepth then
    { state := s, ids := ids, events := [], error := some GLError.STACK_OVERFLOW }
  else if !(source = MESA_DEBUG_SOURCE_APPLICATION ∨
            source = MESA_DEBUG_SOURCE_THIRD_PARTY : Bool) then
    { state := s, ids := ids, events := [], error := some GLError.INVALID_ENUM }
  else
    let len : Nat := if length < 0 then cstrlen message else length.toNat
    if maxMsgLen ≤ len then
      { state := s, ids := ids, events := [], error := some GLError.INVALID_VALUE }
    else
      let ev : DispatchEvent :=
        { source := source, type := MESA_DEBUG_TYPE_PUSH_GROUP, id := id,
          severity := MESA_DEBUG_SEVERITY_NOTIFICATION, len := len, buf := message }
      let r1 := log_msg cap allocLog s ids source MESA_DEBUG_TYPE_PUSH_GROUP id
                  MESA_DEBUG_SEVERITY_NOTIFICATION len message
      let r2 := debug_message_store allocStore source MESA_DEBUG_TYPE_PUSH_GROUP
                  id MESA_DEBUG_SEVERITY_NOTIFICATION len message r1.2
      let s2 := { r1.1 with
                  GroupMessages := fun i =>
                    if i = r1.1.GroupStackDepth then r2.1
                    else r1.1.GroupMessages i }
      { state := debug_push_group s2, ids := r2.2, events := [ev], error := none }

/-- Pop a debug group, after _mesa_PopDebugGroup: pop the stack, replay the
message remembered by the matching push through the dispatch path as a
POP_GROUP event, then clear the pending slot. -/
def mesa_PopDebugGroup (cap : Nat) (allocLog : Bool) (s : DebugState)
    (ids : IdState) : PushPopResult :=
  if s.GroupStackDepth = 0 then
    { state := s, ids := ids, events := [], error := some GLError.STACK_UNDERFLOW }
  else
    let s1 := debug_pop_group s
    let gm := s1.GroupMessages s1.GroupStackDepth
    let ev : DispatchEvent :=
      { source := gm.source, type := MESA_DEBUG_TYPE_POP_GROUP, id := gm.id,
        severity := MESA_DEBUG_SEVERITY_NOTIFICATION, len := gm.length,
        buf := bufOf gm.message }
    let r1 := log_msg cap allocLog s1 ids gm.source MESA_DEBUG_TYPE_POP_GROUP
                gm.id MESA_DEBUG_SEVERITY_NOTIFICATION gm.length (bufOf gm.message)
    let s2 := { r1.1 with
                GroupMessages := fun i =>
                  if i = r1.1.GroupStackDepth then
                    (debug_message_clear (r1.1.GroupMessages i)).2
                  else r1.1.GroupMessages i }
    { state := s2, ids := r1.2, events := [ev], error := none }

/-- One drained message at the consumer boundary: the metadata written to
the output arrays and, when a text buffer was supplied, the bytes copied
for this message. -/
structure Drained where
  source : Nat
  type : Nat
  id : Nat
  severity : Nat
  length : Nat
  text : Option (List Char)
deriving DecidableEq

/-- Result of the drain loop: messages returned, drained records, and the
remaining log. -/
structure DrainResult where
  ret : Nat
  drained : List Drained
  log : GLDebugLog

/-- The retrieval loop of _mesa_GetDebugMessageLog: stops when count is
reached, the log is empty, or a supplied text buffer cannot hold the next
stored text; otherwise copies the stored bytes, emits the metadata and
deletes the message. -/
def getLogLoop (cap count : Nat) (logSize : Int) (hasBuf : Bool)
    (log : GLDebugLog) : DrainResult :=
  match count with
  | 0 => { ret := 0, drained := [], log := log }
  | n + 1 =>
      match debug_fetch_message log with
      | none => { ret := 0, drained := [], log := log }
      | some msg =>
          if logSize < (msg.length : Int) ∧ hasBuf then
            { ret := 0, drained := [], log := log }
          else
            let d : Drained :=
              { source := msg.source, type := msg.type, id := msg.id,
                severity := msg.severity, length := msg.length,
                text := if hasBuf then
                          some (strncpyList (bufOf msg.message) msg.length)
                        else none }
            let logSize2 := if hasBuf then logSize - (msg.length : Int) else logSize
            let r := getLogLoop cap n logSize2 hasBuf (debug_delete_messages cap 1 log)
            { ret := r.ret + 1, drained := d :: r.drained, log := r.log }

/-- Result of _mesa_GetDebugMessageLog: count returned, drained records,
remaining log, reported error if any. -/
structure GetLogResult where
  ret : Nat
  drained : List Drained
  log : GLDebugLog
  error : Option GLError

/-- The drain entry point, after _mesa_GetDebugMessageLog. A NULL text
buffer (hasBuf false) forces the reported capacity to zero before the
negative capacity validation, so only a supplied buffer can make a negative
logSize raise INVALID_VALUE. -/
def mesa_GetDebugMessageLog (cap count : Nat) (logSize : Int) (hasBuf : Bool)
    (log : GLDebugLog) : GetLogResult :=
  let logSize2 := if hasBuf then logSize else 0
  if logSize2 < 0 then
    { ret := 0, drained := [], log := log, error := some GLError.INVALID_VALUE }
  else
    let r := getLogLoop cap count logSize2 hasBuf log
    { ret := r.ret, drained := r.drained, log := r.log, error := none }

/-- Fields of a message submitted for logging, used to describe enqueue
sequences. -/
structure MsgIn where
  source : Nat
  type : Nat
  id : Nat
  severity : Nat
  len : Nat
  buf : List Char
deriving DecidableEq

/-- The stored form of a submitted message when its allocation succeeds:
private null-terminated copy, length counting the terminator. -/
def storedOf (m : MsgIn) : GLDebugMessage :=
  { source := m.source, type := m.type, id := m.id, severity := m.severity,
    length := m.len + 1,
    message := MessageRef.owned (strncpyList m.buf m.len ++ [nulChar]) }

/-- Enqueue a list of messages in order through debug_log_message with
successful allocations. -/
def enqueueAll (cap : Nat) (msgs : List MsgIn) (log : GLDebugLog)
    (ids : IdState) : GLDebugLog × IdState :=
  msgs.foldl
    (fun acc m =>
      debug_log_message cap true acc.1 acc.2 m.source m.type m.id m.severity
        m.len m.buf)
    (log, ids)

/-- Remaining text capacity after a sequence of drained records, following
the running logSize decrements of the drain loop. -/
def remainingAfter : Int → List Drained → Int
  | sz, [] => sz
  | sz, d :: ds => remainingAfter (sz - (d.length : Int)) ds

/-- Whether every drained record fit the remaining capacity at the moment
it was copied. -/
def fitsFrom : Int → List Drained → Bool
  | _, [] => true
  | sz, d :: ds => decide ((d.length : Int) ≤ sz) && fitsFrom (sz - (d.length : Int)) ds

/-- One namespace-level operation, used to describe operation sequences on
a filter namespace. -/
inductive NsOp where
  | set (allocOk : Bool) (id : Nat) (enabled : Bool)
  | setAll (severity : Nat) (enabled : Bool)
  | copy

/-- Apply a namespace operation: set and set_all as in the source, copy a
successful deep copy (a failed copy produces no namespace at all). -/
def applyNsOp (op : NsOp) (ns : GLDebugNamespace) : GLDebugNamespace :=
  match op with
  | NsOp.set a id en => (debug_namespace_set a ns id en).2
  | NsOp.setAll sev en => debug_namespace_set_all ns sev en
  | NsOp.copy =>
      match debug_namespace_copy true ns with
      | some c => c
      | none => ns

/-- Run a sequence of namespace operations from a starting namespace. -/
def runNsOps (ops : List NsOp) (ns : GLDebugNamespace) : GLDebugNamespace :=
  ops.foldl (fun a op => applyNsOp op a) ns

/-- Whether an operation is an explicit per-id set of the given id. -/
def opSetsId : NsOp → Nat → Bool
  | NsOp.set _ i _, id => i == id
  | _, _ => false

/-- Structural well-formedness of a namespace: no override carries the
default mask, and override ids are pairwise distinct. -/
def NsWF (ns : GLDebugNamespace) : Prop :=
  (∀ e ∈ ns.Elements, e.State ≠ ns.DefaultState) ∧
    (ns.Elements.map (fun e => e.ID)).Nodup

/-- No element of the list carries the given id. -/
def noId (l : List GLDebugElement) (i : Nat) : Prop :=
  ∀ e ∈ l, e.ID ≠ i

section HelperLemmas

theorem findElem_eq_none (l : List GLDebugElement) (i : Nat)
    (h : noId l i) : findElem l i = none := by
  induction l with
  | nil => rfl
  | cons e rest ih =>
      simp only [findElem]
      rw [if_neg (h e (by simp))]
      exact ih (fun e2 he2 => h e2 (List.mem_cons_of_mem e he2))

theorem removeFirst_sublist (l : List GLDebugElement) (i : Nat) :
    List.Sublist (removeFirst l i) l := by
  induction l with
  | nil => simp [removeFirst]
  | cons e rest ih =>
      simp only [removeFirst]
      by_cases h : e.ID = i
      · rw [if_pos h]
        exact List.sublist_cons_self e rest
      · rw [if_neg h]
        exact List.Sublist.cons₂ e ih

theorem setFirst_map_ID (l : List GLDebugElement) (i st : Nat) :
    (setFirst l i st).map (fun e => e.ID) = l.map (fun e => e.ID) := by
  induction l with
  | nil => rfl
  | cons e rest ih =>
      simp only [setFirst]
      by_cases h : e.ID = i
      · rw [if_pos h]
        simp
      · rw [if_neg h]
        simp [ih]

theorem mem_setFirst (l : List GLDebugElement) (i st : Nat)
    (e2 : GLDebugElement) (h : e2 ∈ setFirst l i st) :
    e2 ∈ l ∨ e2.State = st := by
  induction l with
  | nil => simp [setFirst] at h
  | cons e rest ih =>
      simp only [setFirst] at h
      by_cases hid : e.ID = i
      · rw [if_pos hid] at h
        rcases List.mem_cons.mp h with h1 | h1
        · right
          rw [h1]
        · left
          exact List.mem_cons_of_mem e h1
      · rw [if_neg hid] at h
        rcases List.mem_cons.mp h with h1 | h1
        · left
          rw [h1]
          exact List.mem_cons_self e rest
        · rcases ih h1 with h2 | h2
          · left
            exact List.mem_cons_of_mem e h2
          · right
            exact h2

theorem findElem_removeFirst (l : List GLDebugElement) (i : Nat)
    (h : (l.map (fun e => e.ID)).Nodup) :
    findElem (removeFirst l i) i = none := by
  induction l with
  | nil => rfl
  | cons e rest ih =>
      simp only [List.map_cons, List.nodup_cons] at h
      simp only [removeFirst]
      by_cases hid : e.ID = i
      · rw [if_pos hid]
        apply findElem_eq_none
        intro e2 he2 heq
        exact h.1 (by
          rw [hid, ← heq]
          exact List.mem_map_of_mem (fun e => e.ID) he2)
      · rw [if_neg hid]
        simp only [findElem]
        rw [if_neg hid]
        exact ih h.2

theorem findElem_setFirst (l : List GLDebugElement) (i st : Nat)
    (e : GLDebugElement) (h : findElem l i = some e) :
    findElem (setFirst l i st) i = some { e with State := st } := by
  induction l with
  | nil => simp [findElem] at h
  | cons e1 rest ih =>
      simp only [findElem] at h
      simp only [setFirst]
      by_cases hid : e1.ID = i
      · rw [if_pos hid] at h
        rw [if_pos hid]
        injection h with h
        subst h
        simp [findElem, hid]
      · rw [if_neg hid] at h
        rw [if_neg hid]
        simp only [findElem]
        rw [if_neg hid]
        exact ih h

theorem findElem_append_self (l : List GLDebugElement) (i st : Nat)
    (h : findElem l i = none) :
    findElem (l ++ [{ ID := i, State := st }]) i
      = some { ID := i, State := st } := by
  induction l with
  | nil => simp [findElem]
  | cons e rest ih =>
      simp only [findElem] at h
      by_cases hid : e.ID = i
      · rw [if_pos hid] at h
        exact absurd h (by simp)
      · rw [if_neg hid] at h
        simp only [List.cons_append, findElem]
        rw [if_neg hid]
        exact ih h

theorem noId_of_findElem_none (l : List GLDebugElement) (i : Nat)
    (h : findElem l i = none) : noId l i := by
  induction l with
  | nil => intro e he; simp at he
  | cons e rest ih =>
      simp only [findElem] at h
      by_cases hid : e.ID = i
      · rw [if_pos hid] at h
        exact absurd h (by simp)
      · rw [if_neg hid] at h
        intro e2 he2
        rcases List.mem_cons.mp he2 with h1 | h1
        · rw [h1]
          exact hid
        · exact ih h e2 h1

theorem nsWF_init : NsWF debug_namespace_init := by
  constructor <;> simp [debug_namespace_init]

theorem nsWF_set (a : Bool) (ns : GLDebugNamespace) (id : Nat) (en : Bool)
    (h : NsWF ns) : NsWF (debug_namespace_set a ns id en).2 := by
  obtain ⟨h1, h2⟩ := h
  simp only [debug_namespace_set]
  by_cases hdef : ns.DefaultState =
      (if en then (1 <<< MESA_DEBUG_SEVERITY_COUNT) - 1 else 0)
  · rw [if_pos hdef]
    constructor
    · intro e he
      exact h1 e ((removeFirst_sublist ns.Elements id).mem he)
    · exact h2.sublist ((removeFirst_sublist ns.Elements id).map (fun e => e.ID))
  · rw [if_neg hdef]
    rcases hfe : findElem ns.Elements id with _ | e
    · rcases a with _ | _
      · exact ⟨h1, h2⟩
      · constructor
        · intro e2 he2
          rcases List.mem_append.mp he2 with hm | hm
          · exact h1 e2 hm
          · simp only [List.mem_singleton] at hm
            rw [hm]
            exact fun hx => hdef hx.symm
        · have hni : id ∉ ns.Elements.map (fun e => e.ID) := by
            intro hmem
            rcases List.mem_map.mp hmem with ⟨e2, he2, heq⟩
            exact (noId_of_findElem_none ns.Elements id hfe) e2 he2 heq
          simp [List.nodup_append, h2, hni]
    · constructor
      · intro e2 he2
        rcases mem_setFirst ns.Elements id _ e2 he2 with hm | hm
        · exact h1 e2 hm
        · rw [hm]
          exact fun hx => hdef hx.symm
      · rw [setFirst_map_ID]
        exact h2

theorem nsWF_set_all (ns : GLDebugNamespace) (sev : Nat) (en : Bool)
    (h : NsWF ns) : NsWF (debug_namespace_set_all ns sev en) := by
  obtain ⟨_, h2⟩ := h
  simp only [debug_namespace_set_all]
  by_cases hw : sev = MESA_DEBUG_SEVERITY_COUNT
  · rw [if_pos hw]
    constructor <;> simp
  · rw [if_neg hw]
    constructor
    · intro e he hx
      have := List.of_mem_filter he
      simp only [bne_iff_ne, ne_eq] at this
      exact this hx
    · dsimp only
      refine List.Nodup.sublist
        ((List.filter_sublist _).map (fun e : GLDebugElement => e.ID)) ?_
      rw [List.map_map]
      exact h2

theorem nsWF_copy (ns : GLDebugNamespace) : debug_namespace_copy true ns = some ns := by
  simp [debug_namespace_copy]

theorem nsWF_applyNsOp (op : NsOp) (ns : GLDebugNamespace) (h : NsWF ns) :
    NsWF (applyNsOp op ns) := by
  rcases op with ⟨a, id, en⟩ | ⟨sev, en⟩ | _
  · exact nsWF_set a ns id en h
  · exact nsWF_set_all ns sev en h
  · simp only [applyNsOp, nsWF_copy]
    exact h

theorem nsWF_runNsOps (ops : List NsOp) (ns : GLDebugNamespace) (h : NsWF ns) :
    NsWF (runNsOps ops ns) := by
  induction ops generalizing ns with
  | nil => exact h
  | cons op rest ih =>
      simp only [runNsOps, List.foldl_cons] at *
      exact ih (applyNsOp op ns) (nsWF_applyNsOp op ns h)

theorem bitGet_eq (state sev : Nat) :
    ((state &&& (1 <<< sev)) != 0) = state.testBit sev := by
  have h1 : (1 : Nat) <<< sev = 2 ^ sev := by
    rw [Nat.shiftLeft_eq, one_mul]
  rw [h1, Nat.and_two_pow]
  rcases hb : state.testBit sev with _ | _
  · simp
  · simp only [Bool.toNat_true, one_mul]
    simp [bne_iff_ne, (Nat.two_pow_pos sev).ne']

theorem maskUpdate_testBit (x sev b : Nat) (en : Bool)
    (hx : x < 2 ^ 32) (hsev : sev < 32) :
    (maskAndNot x (1 <<< sev) ||| (if en then 1 <<< sev else 0)).testBit b
      = if b = sev then en else x.testBit b := by
  have h1 : (1 : Nat) <<< sev = 2 ^ sev := by
    rw [Nat.shiftLeft_eq, one_mul]
  have hmask : UINT32_MASK = 2 ^ 32 - 1 := by decide
  simp only [maskAndNot, h1, hmask]
  rw [Nat.testBit_lor, Nat.testBit_land, Nat.testBit_xor,
    Nat.testBit_two_pow_sub_one, apply_ite (fun n : Nat => n.testBit b),
    Nat.testBit_two_pow, Nat.zero_testBit]
  by_cases hb : b = sev
  · subst hb
    rcases en with _ | _ <;> simp [hsev]
  · have hsb : ¬sev = b := fun h => hb h.symm
    by_cases h32 : b < 32
    · rcases en with _ | _ <;> simp [hsb, hb, h32]
    · have hxb : x.testBit b = false :=
        Nat.testBit_eq_false_of_lt
          (Nat.lt_of_lt_of_le hx (Nat.pow_le_pow_right (by norm_num) (by omega)))
      rcases en with _ | _ <;> simp [hsb, hb, h32, hxb]

end HelperLemmas

/-- C7: in every filter namespace state reachable from the initial state by
any sequence of set, set_all and copy operations, no override entry has a
mask equal to the current default mask. -/
theorem C7_no_override_equals_default (ops : List NsOp) (e : GLDebugElement)
    (he : e ∈ (runNsOps ops debug_namespace_init).Elements) :
    e.State ≠ (runNsOps ops debug_namespace_init).DefaultState :=
  (nsWF_runNsOps ops debug_namespace_init nsWF_init).1 e he

/-- Witness for C7 at a concrete reachable state with one override. -/
theorem C7_witness :
    (({ ID := 3, State := 0 } : GLDebugElement)
        ∈ (runNsOps [NsOp.set true 3 false] debug_namespace_init).Elements)
      ∧ ({ ID := 3, State := 0 } : GLDebugElement).State
          ≠ (runNsOps [NsOp.set true 3 false] debug_namespace_init).DefaultState :=
  ⟨by decide,
   C7_no_override_equals_default [NsOp.set true 3 false] _ (by decide)⟩

/-- C6: set_all with the wildcard severity replaces the default mask
wholesale (all four severity bits when enabling, none when disabling) and
discards every override; set_all with one severity flips exactly that bit
of the default mask and of every override mask, and prunes every override
whose mask then equals the new default. -/
theorem C6_set_all_semantics (ns : GLDebugNamespace) (severity : Nat)
    (enabled : Bool) (hsev : severity < 4) (hd : ns.DefaultState < 2 ^ 32)
    (he : ∀ e ∈ ns.Elements, e.State < 2 ^ 32) :
    ((debug_namespace_set_all ns MESA_DEBUG_SEVERITY_COUNT enabled).Elements = []
      ∧ (debug_namespace_set_all ns MESA_DEBUG_SEVERITY_COUNT enabled).DefaultState
          = (if enabled then 15 else 0)
      ∧ ∀ b, b < 4 → (debug_namespace_set_all ns MESA_DEBUG_SEVERITY_COUNT
            enabled).DefaultState.testBit b = enabled)
    ∧ ((∀ b, (debug_namespace_set_all ns severity enabled).DefaultState.testBit b
          = if b = severity then enabled else ns.DefaultState.testBit b)
      ∧ (∀ e2 ∈ (debug_namespace_set_all ns severity enabled).Elements,
          e2.State ≠ (debug_namespace_set_all ns severity enabled).DefaultState)
      ∧ (∀ e2 ∈ (debug_namespace_set_all ns severity enabled).Elements,
          ∃ e ∈ ns.Elements, e2.ID = e.ID ∧ ∀ b,
            e2.State.testBit b
              = if b = severity then enabled else e.State.testBit b)
      ∧ (∀ e ∈ ns.Elements,
          (maskAndNot e.State (1 <<< severity) |||
              (if enabled then 1 <<< severity else 0))
              = (debug_namespace_set_all ns severity enabled).DefaultState
            ∨ ({ e with State := maskAndNot e.State (1 <<< severity) |||
                  (if enabled then 1 <<< severity else 0) } : GLDebugElement)
                ∈ (debug_namespace_set_all ns severity enabled).Elements)) := by
  have hne : severity ≠ MESA_DEBUG_SEVERITY_COUNT := by
    simp only [MESA_DEBUG_SEVERITY_COUNT]
    omega
  constructor
  · refine ⟨rfl, by rcases enabled with _ | _ <;> rfl, ?_⟩
    intro b hb
    simp only [debug_namespace_set_all, if_pos rfl]
    rcases enabled with _ | _
    · simp [Nat.zero_testBit]
    · have h15 : ((1 <<< MESA_DEBUG_SEVERITY_COUNT) - 1 : Nat) = 2 ^ 4 - 1 := rfl
      simp only [if_true, h15]
      rw [Nat.testBit_two_pow_sub_one]
      simp [hb]
  · simp only [debug_namespace_set_all, if_neg hne]
    refine ⟨?_, ?_, ?_, ?_⟩
    · intro b
      exact maskUpdate_testBit ns.DefaultState severity b enabled hd (by omega)
    · intro e2 he2 hx
      have := List.of_mem_filter he2
      simp only [bne_iff_ne, ne_eq] at this
      exact this hx
    · intro e2 he2
      have hm := List.mem_of_mem_filter he2
      rcases List.mem_map.mp hm with ⟨e, hel, hupd⟩
      refine ⟨e, hel, ?_, ?_⟩
      · rw [← hupd]
      · intro b
        rw [← hupd]
        exact maskUpdate_testBit e.State severity b enabled (he e hel) (by omega)
    · intro e hel
      by_cases hp : (maskAndNot e.State (1 <<< severity) |||
          (if enabled then 1 <<< severity else 0))
          = maskAndNot ns.DefaultState (1 <<< severity) |||
            (if enabled then 1 <<< severity else 0)
      · left
        exact hp
      · right
        refine List.mem_filter.mpr ⟨List.mem_map.mpr ⟨e, hel, rfl⟩, ?_⟩
        simp only [bne_iff_ne, ne_eq]
        exact hp

theorem stateBit_eq (enabled : Bool) (sev : Nat) (hsev : sev < 4) (st : Nat)
    (hst : st = (if enabled then (1 <<< MESA_DEBUG_SEVERITY_COUNT) - 1 else 0)) :
    ((st &&& (1 <<< sev)) != 0) = enabled := by
  subst hst
  rw [bitGet_eq]
  rcases enabled with _ | _
  · simp [Nat.zero_testBit]
  · have h15 : ((1 <<< MESA_DEBUG_SEVERITY_COUNT) - 1 : Nat) = 2 ^ 4 - 1 := rfl
    simp only [if_true, h15]
    rw [Nat.testBit_two_pow_sub_one]
    simp [hsev]

theorem get_after_set (ns : GLDebugNamespace) (id sev : Nat)
    (enabled aOk : Bool) (hwf : NsWF ns) (hsev : sev < 4)
    (ns2 : GLDebugNamespace)
    (hset : debug_namespace_set aOk ns id enabled = (true, ns2)) :
    debug_namespace_get ns2 id sev = enabled := by
  simp only [debug_namespace_set] at hset
  by_cases hdef : ns.DefaultState =
      (if enabled then (1 <<< MESA_DEBUG_SEVERITY_COUNT) - 1 else 0)
  · rw [if_pos hdef] at hset
    simp only [Prod.mk.injEq, true_and] at hset
    subst hset
    simp only [debug_namespace_get]
    rw [findElem_removeFirst ns.Elements id hwf.2]
    exact stateBit_eq enabled sev hsev ns.DefaultState hdef
  · rw [if_neg hdef] at hset
    rcases hfe : findElem ns.Elements id with _ | e
    · simp only [hfe] at hset
      rcases aOk with _ | _
      · simp at hset
      · simp only [if_true, Prod.mk.injEq, true_and] at hset
        subst hset
        simp only [debug_namespace_get]
        rw [findElem_append_self ns.Elements id _ hfe]
        exact stateBit_eq enabled sev hsev _ rfl
    · simp only [hfe] at hset
      simp only [Prod.mk.injEq, true_and] at hset
      subst hset
      simp only [debug_namespace_get]
      rw [findElem_setFirst ns.Elements id _ e hfe]
      exact stateBit_eq enabled sev hsev _ rfl

theorem noId_applyNsOp (op : NsOp) (ns : GLDebugNamespace) (id : Nat)
    (hop : opSetsId op id = false) (h : noId ns.Elements id) :
    noId (applyNsOp op ns).Elements id := by
  rcases op with ⟨a, j, en⟩ | ⟨sev, en⟩ | _
  · have hj : j ≠ id := by simpa [opSetsId] using hop
    simp only [applyNsOp, debug_namespace_set]
    by_cases hdef : ns.DefaultState =
        (if en then (1 <<< MESA_DEBUG_SEVERITY_COUNT) - 1 else 0)
    · rw [if_pos hdef]
      intro e2 he2
      exact h e2 ((removeFirst_sublist ns.Elements j).mem he2)
    · rw [if_neg hdef]
      rcases hfe : findElem ns.Elements j with _ | e
      · rcases a with _ | _
        · exact h
        · intro e2 he2
          rcases List.mem_append.mp he2 with hm | hm
          · exact h e2 hm
          · simp only [List.mem_singleton] at hm
            rw [hm]
            exact hj
      · intro e2 he2
        have hmem : e2.ID ∈ (setFirst ns.Elements j _).map (fun e => e.ID) :=
          List.mem_map_of_mem (fun e => e.ID) he2
        rw [setFirst_map_ID] at hmem
        rcases List.mem_map.mp hmem with ⟨e3, he3, hid⟩
        rw [← hid]
        exact h e3 he3
  · simp only [applyNsOp, debug_namespace_set_all]
    by_cases hw : sev = MESA_DEBUG_SEVERITY_COUNT
    · rw [if_pos hw]
      intro e2 he2
      simp at he2
    · rw [if_neg hw]
      intro e2 he2
      rcases List.mem_map.mp (List.mem_of_mem_filter he2) with ⟨e3, he3, hupd⟩
      rw [← hupd]
      exact h e3 he3
  · simp only [applyNsOp, nsWF_copy]
    exact h

theorem noId_runNsOps (ops : List NsOp) (ns : GLDebugNamespace) (id : Nat)
    (hops : ∀ op ∈ ops, opSetsId op id = false) (h : noId ns.Elements id) :
    noId (runNsOps ops ns).Elements id := by
  induction ops generalizing ns with
  | nil => exact h
  | cons op rest ih =>
      simp only [runNsOps, List.foldl_cons] at *
      exact ih (applyNsOp op ns)
        (fun o ho => hops o (List.mem_cons_of_mem op ho))
        (noId_applyNsOp op ns id (hops op (List.mem_cons_self op rest)) h)

theorem get_default_of_noId (ns : GLDebugNamespace) (id sev : Nat)
    (h : noId ns.Elements id) :
    debug_namespace_get ns id sev = ns.DefaultState.testBit sev := by
  simp only [debug_namespace_get]
  rw [findElem_eq_none ns.Elements id h]
  exact bitGet_eq ns.DefaultState sev

/-- C8: for every operation sequence on a filter namespace, get(id, sev)
immediately after a successful set(id, enabled) returns enabled at every
valid severity, and get(id, sev) for an id never explicitly set returns the
bit of the current default mask at that severity. -/
theorem C8_set_then_get (ops : List NsOp) (id sev : Nat) (hsev : sev < 4)
    (enabled aOk : Bool) :
    (∀ ns2, debug_namespace_set aOk (runNsOps ops debug_namespace_init) id
          enabled = (true, ns2) →
        debug_namespace_get ns2 id sev = enabled)
    ∧ ((∀ op ∈ ops, opSetsId op id = false) →
        debug_namespace_get (runNsOps ops debug_namespace_init) id sev
          = (runNsOps ops debug_namespace_init).DefaultState.testBit sev) := by
  constructor
  · intro ns2 hset
    exact get_after_set _ id sev enabled aOk
      (nsWF_runNsOps ops _ nsWF_init) hsev ns2 hset
  · intro hops
    refine get_default_of_noId _ id sev (noId_runNsOps ops _ id hops ?_)
    intro e he
    simp [debug_namespace_init] at he

/-- Witness for C8 at a concrete operation sequence. -/
theorem C8_witness :
    ((2 : Nat) < 4)
    ∧ ((∀ ns2, debug_namespace_set true
            (runNsOps [NsOp.setAll 0 true] debug_namespace_init) 5 true
            = (true, ns2) →
          debug_namespace_get ns2 5 2 = true)
      ∧ ((∀ op ∈ [NsOp.setAll 0 true], opSetsId op 5 = false) →
          debug_namespace_get (runNsOps [NsOp.setAll 0 true]
              debug_namespace_init) 5 2
            = (runNsOps [NsOp.setAll 0 true]
                debug_namespace_init).DefaultState.testBit 2)) :=
  ⟨by decide, C8_set_then_get [NsOp.setAll 0 true] 5 2 (by decide) true true⟩

/-- Witness for C6 at a concrete namespace with one override. -/
theorem C6_witness :
    ((2 : Nat) < 4
      ∧ ({ Elements := [{ ID := 1, State := 15 }], DefaultState := 6 } :
          GLDebugNamespace).DefaultState < 2 ^ 32)
    ∧ ((debug_namespace_set_all
          { Elements := [{ ID := 1, State := 15 }], DefaultState := 6 }
          MESA_DEBUG_SEVERITY_COUNT false).Elements = []
      ∧ ∀ b, (debug_namespace_set_all
          { Elements := [{ ID := 1, State := 15 }], DefaultState := 6 }
          2 false).DefaultState.testBit b
            = if b = 2 then false
              else (({ Elements := [{ ID := 1, State := 15 }], DefaultState := 6 } :
                  GLDebugNamespace).DefaultState.testBit b)) := by
  refine ⟨⟨by decide, by decide⟩, ?_, ?_⟩
  · exact (C6_set_all_semantics
      { Elements := [{ ID := 1, State := 15 }], DefaultState := 6 } 2 false
      (by decide) (by decide) (by decide)).1.1
  · exact (C6_set_all_semantics
      { Elements := [{ ID := 1, State := 15 }], DefaultState := 6 } 2 false
      (by decide) (by decide) (by decide)).2.1

/-- C9: when allocating the private text copy fails during enqueue, the
stored message becomes the shared out-of-memory sentinel with severity
forced to HIGH, type to ERROR, source to OTHER, its id the dedicated lazily
allocated sentinel id that every later OOM store reuses unchanged, and
clearing a message holding the sentinel never frees it. -/
theorem C9_oom_sentinel (source type id severity len : Nat) (buf : List Char)
    (ids : IdState) (hnext : 0 < ids.NextDynamicID) :
    ((debug_message_store false source type id severity len buf ids).1.severity
        = MESA_DEBUG_SEVERITY_HIGH
      ∧ (debug_message_store false source type id severity len buf ids).1.type
          = MESA_DEBUG_TYPE_ERROR
      ∧ (debug_message_store false source type id severity len buf ids).1.source
          = MESA_DEBUG_SOURCE_OTHER
      ∧ (debug_message_store false source type id severity len buf ids).1.message
          = MessageRef.oomSentinel
      ∧ (debug_message_store false source type id severity len buf ids).1.length
          = cstrlen out_of_memory + 1)
    ∧ ((debug_message_store false source type id severity len buf ids).2.oomMsgId
        = (debug_message_store false source type id severity len buf ids).1.id
      ∧ (debug_message_store false source type id severity len buf ids).1.id ≠ 0)
    ∧ (∀ source2 type2 id2 severity2 len2 buf2,
        (debug_message_store false source2 type2 id2 severity2 len2 buf2
            (debug_message_store false source type id severity len buf ids).2).1.id
          = (debug_message_store false source type id severity len buf ids).1.id
        ∧ (debug_message_store false source2 type2 id2 severity2 len2 buf2
            (debug_message_store false source type id severity len buf ids).2).2
          = (debug_message_store false source type id severity len buf ids).2)
    ∧ (debug_message_clear
        (debug_message_store false source type id severity len buf ids).1).1
        = false := by
  have hne : ids.NextDynamicID ≠ 0 := by omega
  by_cases h0 : ids.oomMsgId = 0
  · simp [debug_message_store, debug_get_id, debug_message_clear, h0, hne]
  · simp [debug_message_store, debug_get_id, debug_message_clear, h0]

/-- Witness for C9 at a concrete global id state. -/
theorem C9_witness :
    (0 < (⟨1, 0⟩ : IdState).NextDynamicID)
    ∧ (debug_message_store false 0 5 9 1 3 [] ⟨1, 0⟩).1.message
        = MessageRef.oomSentinel
    ∧ (debug_message_store false 0 5 9 1 3 [] ⟨1, 0⟩).1.id ≠ 0
    ∧ (debug_message_clear (debug_message_store false 0 5 9 1 3 [] ⟨1, 0⟩).1).1
        = false :=
  ⟨by decide,
   (C9_oom_sentinel 0 5 9 1 3 [] ⟨1, 0⟩ (by decide)).1.2.2.2.1,
   (C9_oom_sentinel 0 5 9 1 3 [] ⟨1, 0⟩ (by decide)).2.1.2,
   (C9_oom_sentinel 0 5 9 1 3 [] ⟨1, 0⟩ (by decide)).2.2.2⟩

theorem fetch_none_iff (log : GLDebugLog) :
    debug_fetch_message log = none ↔ log.NumMessages = 0 := by
  simp only [debug_fetch_message]
  by_cases h : log.NumMessages ≠ 0
  · rw [if_pos h]
    simp [h]
  · rw [if_neg h]
    simp
    omega

theorem fetch_some_num (log : GLDebugLog) (msg : GLDebugMessage)
    (h : debug_fetch_message log = some msg) : 0 < log.NumMessages := by
  by_cases hn : log.NumMessages = 0
  · rw [(fetch_none_iff log).mpr hn] at h
    exact absurd h (by simp)
  · omega

theorem delete_one_num (cap : Nat) (log : GLDebugLog)
    (h : 0 < log.NumMessages) :
    (debug_delete_messages cap 1 log).NumMessages = log.NumMessages - 1 := by
  simp only [debug_delete_messages]
  have hm : min 1 log.NumMessages = 1 := by omega
  rw [hm]
  simp [deleteLoop]

theorem getLogLoop_succ_none (cap n : Nat) (logSize : Int) (hasBuf : Bool)
    (log : GLDebugLog) (hf : debug_fetch_message log = none) :
    getLogLoop cap (n + 1) logSize hasBuf log
      = { ret := 0, drained := [], log := log } := by
  simp only [getLogLoop, hf]

theorem getLogLoop_succ_stop (cap n : Nat) (logSize : Int) (hasBuf : Bool)
    (log : GLDebugLog) (msg : GLDebugMessage)
    (hf : debug_fetch_message log = some msg)
    (hcond : logSize < (msg.length : Int) ∧ hasBuf) :
    getLogLoop cap (n + 1) logSize hasBuf log
      = { ret := 0, drained := [], log := log } := by
  simp only [getLogLoop, hf]
  rw [if_pos hcond]

theorem getLogLoop_succ_step (cap n : Nat) (logSize logSize2 : Int)
    (hasBuf : Bool) (log : GLDebugLog) (msg : GLDebugMessage)
    (hf : debug_fetch_message log = some msg)
    (hcond : ¬(logSize < (msg.length : Int) ∧ hasBuf))
    (hls : logSize2 = if hasBuf then logSize - (msg.length : Int) else logSize) :
    getLogLoop cap (n + 1) logSize hasBuf log
      = { ret := (getLogLoop cap n logSize2 hasBuf
                    (debug_delete_messages cap 1 log)).ret + 1,
          drained := { source := msg.source, type := msg.type, id := msg.id,
                       severity := msg.severity, length := msg.length,
                       text := if hasBuf then
                                 some (strncpyList (bufOf msg.message) msg.length)
                               else none } ::
            (getLogLoop cap n logSize2 hasBuf
              (debug_delete_messages cap 1 log)).drained,
          log := (getLogLoop cap n logSize2 hasBuf
                   (debug_delete_messages cap 1 log)).log } := by
  subst hls
  simp only [getLogLoop, hf]
  rw [if_neg hcond]

theorem getLogLoop_noBuf (cap count : Nat) (logSize : Int) (log : GLDebugLog) :
    (getLogLoop cap count logSize false log).ret = min count log.NumMessages
    ∧ ∀ d ∈ (getLogLoop cap count logSize false log).drained, d.text = none := by
  induction count generalizing logSize log with
  | zero => simp [getLogLoop]
  | succ n ih =>
      rcases hf : debug_fetch_message log with _ | msg
      · have h0 : log.NumMessages = 0 := (fetch_none_iff log).mp hf
        rw [getLogLoop_succ_none cap n logSize false log hf]
        simp [h0]
      · have hnum : 0 < log.NumMessages := fetch_some_num log msg hf
        rw [getLogLoop_succ_step cap n logSize logSize false log msg hf
          (by simp) (by simp)]
        refine ⟨?_, ?_⟩
        · dsimp only
          rw [(ih logSize (debug_delete_messages cap 1 log)).1,
            delete_one_num cap log hnum]
          omega
        · intro d hd
          rcases List.mem_cons.mp hd with h1 | h1
          · rw [h1]
            rfl
          · exact (ih logSize (debug_delete_messages cap 1 log)).2 d h1

theorem mesa_GetLog_noBuf_eq (cap count : Nat) (logSize : Int)
    (log : GLDebugLog) :
    mesa_GetDebugMessageLog cap count logSize false log
      = { ret := (getLogLoop cap count 0 false log).ret,
          drained := (getLogLoop cap count 0 false log).drained,
          log := (getLogLoop cap count 0 false log).log,
          error := none } := by
  simp [mesa_GetDebugMessageLog]

theorem mesa_GetLog_buf_eq (cap count : Nat) (logSize : Int)
    (log : GLDebugLog) (h0 : 0 ≤ logSize) :
    mesa_GetDebugMessageLog cap count logSize true log
      = { ret := (getLogLoop cap count logSize true log).ret,
          drained := (getLogLoop cap count logSize true log).drained,
          log := (getLogLoop cap count logSize true log).log,
          error := none } := by
  simp [mesa_GetDebugMessageLog, Int.not_lt.mpr h0]

theorem mesa_GetLog_buf_neg_eq (cap count : Nat) (logSize : Int)
    (log : GLDebugLog) (hneg : logSize < 0) :
    mesa_GetDebugMessageLog cap count logSize true log
      = { ret := 0, drained := [], log := log,
          error := some GLError.INVALID_VALUE } := by
  simp [mesa_GetDebugMessageLog, hneg]

/-- C10: a NULL text pointer forces the reported buffer capacity to zero
before the negative capacity validation runs, so a NULL pointer with a
negative capacity raises no error and the drain returns up to count
messages metadata-only, regardless of their stored lengths; the same
negative capacity with a buffer present raises INVALID_VALUE. -/
theorem C10_null_buffer_drain (cap count : Nat) (logSize : Int)
    (log : GLDebugLog) (hneg : logSize < 0) :
    (mesa_GetDebugMessageLog cap count logSize false log).error = none
    ∧ (mesa_GetDebugMessageLog cap count logSize false log).ret
        = min count log.NumMessages
    ∧ (∀ d ∈ (mesa_GetDebugMessageLog cap count logSize false log).drained,
        d.text = none)
    ∧ mesa_GetDebugMessageLog cap count logSize false log
        = mesa_GetDebugMessageLog cap count 0 false log
    ∧ (mesa_GetDebugMessageLog cap count logSize true log).error
        = some GLError.INVALID_VALUE := by
  rw [mesa_GetLog_noBuf_eq cap count logSize log,
    mesa_GetLog_noBuf_eq cap count 0 log,
    mesa_GetLog_buf_neg_eq cap count logSize log hneg]
  exact ⟨rfl, (getLogLoop_noBuf cap count 0 log).1,
    (getLogLoop_noBuf cap count 0 log).2, rfl, rfl⟩

/-- Witness for C10 at a concrete log holding one message. -/
theorem C10_witness :
    ((-5 : Int) < 0)
    ∧ (mesa_GetDebugMessageLog 3 2 (-5)
        false (enqueueAll 3 [⟨0, 0, 9, 2, 1, [Char.ofNat 65]⟩] emptyLog ⟨1, 0⟩).1).error
        = none
    ∧ (mesa_GetDebugMessageLog 3 2 (-5)
        false (enqueueAll 3 [⟨0, 0, 9, 2, 1, [Char.ofNat 65]⟩] emptyLog ⟨1, 0⟩).1).ret
        = min 2 (enqueueAll 3 [⟨0, 0, 9, 2, 1, [Char.ofNat 65]⟩] emptyLog ⟨1, 0⟩).1.NumMessages
    ∧ (mesa_GetDebugMessageLog 3 2 (-5)
        true (enqueueAll 3 [⟨0, 0, 9, 2, 1, [Char.ofNat 65]⟩] emptyLog ⟨1, 0⟩).1).error
        = some GLError.INVALID_VALUE :=
  ⟨by decide,
   (C10_null_buffer_drain 3 2 (-5) _ (by decide)).1,
   (C10_null_buffer_drain 3 2 (-5) _ (by decide)).2.1,
   (C10_null_buffer_drain 3 2 (-5) _ (by decide)).2.2.2.2⟩

theorem getLogLoop_fits (cap count : Nat) (logSize : Int) (log : GLDebugLog) :
    fitsFrom logSize (getLogLoop cap count logSize true log).drained = true := by
  induction count generalizing logSize log with
  | zero => simp [getLogLoop, fitsFrom]
  | succ n ih =>
      rcases hf : debug_fetch_message log with _ | msg
      · rw [getLogLoop_succ_none cap n logSize true log hf]
        simp [fitsFrom]
      · by_cases hfit : logSize < (msg.length : Int)
        · rw [getLogLoop_succ_stop cap n logSize true log msg hf ⟨hfit, rfl⟩]
          simp [fitsFrom]
        · rw [getLogLoop_succ_step cap n logSize (logSize - (msg.length : Int))
            true log msg hf (fun hc => hfit hc.1) (by simp)]
          simp only [fitsFrom, Bool.and_eq_true, decide_eq_true_eq]
          exact ⟨Int.not_lt.mp hfit,
            ih (logSize - (msg.length : Int)) (debug_delete_messages cap 1 log)⟩

theorem getLogLoop_earlyStop (cap count : Nat) (logSize : Int)
    (log : GLDebugLog) :
    ∀ msg, (getLogLoop cap count logSize true log).ret < count →
      debug_fetch_message (getLogLoop cap count logSize true log).log = some msg →
      remainingAfter logSize (getLogLoop cap count logSize true log).drained
        < (msg.length : Int) := by
  induction count generalizing logSize log with
  | zero =>
      intro msg h
      exact absurd h (by omega)
  | succ n ih =>
      intro msg hret hfetch
      rcases hf : debug_fetch_message log with _ | m
      · rw [getLogLoop_succ_none cap n logSize true log hf] at hfetch
        rw [hf] at hfetch
        exact absurd hfetch (by simp)
      · by_cases hfit : logSize < (m.length : Int)
        · rw [getLogLoop_succ_stop cap n logSize true log m hf ⟨hfit, rfl⟩]
            at hfetch ⊢
          rw [hf] at hfetch
          injection hfetch with hfetch
          subst hfetch
          simpa [remainingAfter] using hfit
        · rw [getLogLoop_succ_step cap n logSize (logSize - (m.length : Int))
            true log m hf (fun hc => hfit hc.1) (by simp)] at hret hfetch ⊢
          simp only [remainingAfter]
          exact ih (logSize - (m.length : Int)) (debug_delete_messages cap 1 log)
            msg (by simpa using Nat.lt_of_succ_lt_succ (by simpa using hret)) hfetch

/-- C4: with a text buffer present, every message drained by
_mesa_GetDebugMessageLog fit the remaining buffer capacity at the moment it
was copied, the first message that would overflow stops the drain early and
stays buffered at the head of the log, and with the capacity reported as
zero through a NULL buffer the drain delivers up to count messages
metadata-only, copying no text and never blocked by the fit check. -/
theorem C4_drain_fit (cap count : Nat) (logSize : Int) (log : GLDebugLog)
    (h0 : 0 ≤ logSize) :
    ((mesa_GetDebugMessageLog cap count logSize true log).error = none
      ∧ fitsFrom logSize
          (mesa_GetDebugMessageLog cap count logSize true log).drained = true
      ∧ (∀ msg, (mesa_GetDebugMessageLog cap count logSize true log).ret < count →
          debug_fetch_message
              (mesa_GetDebugMessageLog cap count logSize true log).log = some msg →
          remainingAfter logSize
              (mesa_GetDebugMessageLog cap count logSize true log).drained
            < (msg.length : Int)))
    ∧ ((mesa_GetDebugMessageLog cap count 0 false log).error = none
      ∧ (mesa_GetDebugMessageLog cap count 0 false log).ret
          = min count log.NumMessages
      ∧ ∀ d ∈ (mesa_GetDebugMessageLog cap count 0 false log).drained,
          d.text = none) := by
  rw [mesa_GetLog_buf_eq cap count logSize log h0,
    mesa_GetLog_noBuf_eq cap count 0 log]
  exact ⟨⟨rfl, getLogLoop_fits cap count logSize log,
      fun msg h1 h2 => getLogLoop_earlyStop cap count logSize log msg h1 h2⟩,
    rfl, (getLogLoop_noBuf cap count 0 log).1,
    (getLogLoop_noBuf cap count 0 log).2⟩

/-- Witness for C4 at the log holding stored lengths 5, 3, 10 and capacity
12: the first two messages fit and the third blocks the drain. -/
theorem C4_witness :
    ((0 : Int) ≤ 12)
    ∧ fitsFrom 12
        (mesa_GetDebugMessageLog 4 3 12 true
          (enqueueAll 4
            [⟨0, 0, 1, 2, 4, [Char.ofNat 65, Char.ofNat 66, Char.ofNat 67, Char.ofNat 68]⟩,
             ⟨0, 0, 2, 2, 2, [Char.ofNat 69, Char.ofNat 70]⟩,
             ⟨0, 0, 3, 2, 9, List.replicate 9 (Char.ofNat 71)⟩]
            emptyLog ⟨1, 0⟩).1).drained = true :=
  ⟨by decide,
   (C4_drain_fit 4 3 12 _ (by decide)).1.2.1⟩

/-- C1: the code violates this claim, evaluated at the failing input. After
one push the top slot aliases slot 0 and the deep copy of
debug_make_group_writable reports failure, yet debug_set_message_enable
ignores that result and mutates the still-shared group: the filter answer
observed at depth 0 for id 7 at severity HIGH flips from true to false. -/
theorem C1_copy_failure_mutates_shared_group :
    getAtDepth (debug_push_group debug_create) 0 0 0 7 MESA_DEBUG_SEVERITY_HIGH
        = true
    ∧ (debug_make_group_writable false (debug_push_group debug_create)).1
        = false
    ∧ getAtDepth
        (debug_set_message_enable false true (debug_push_group debug_create)
          0 0 7 false)
        0 0 0 7 MESA_DEBUG_SEVERITY_HIGH = false :=
  ⟨by decide, by decide, by decide⟩

/-- C5: after a push, applying any filter mutation with successful
allocation to the active top group changes no filter answer observed
against the group at the previous depth, and after a pop of the untouched
shared top the group at the new top is exactly the group value from before
the push, with the depth restored. -/
theorem C5_copy_on_write (s : DebugState) (g : Nat) (m : FilterMutation)
    (src ty id sev : Nat)
    (htop : s.Groups s.GroupStackDepth = some g)
    (hfresh : g < s.nextGroupId) :
    (getAtDepth (applyMutation true true m (debug_push_group s))
        s.GroupStackDepth src ty id sev
      = getAtDepth (debug_push_group s) s.GroupStackDepth src ty id sev)
    ∧ (debug_pop_group (debug_push_group s)).GroupStackDepth = s.GroupStackDepth
    ∧ groupAtDepth (debug_pop_group (debug_push_group s)) s.GroupStackDepth
        = groupAtDepth s s.GroupStackDepth := by
  have hgn : g ≠ s.nextGroupId := Nat.ne_of_lt hfresh
  refine ⟨?_, ?_, ?_⟩
  · rcases m with ⟨src0, ty0, id0, en0⟩ | ⟨src0, ty0, sev0, en0⟩
    · simp only [applyMutation]
      simp [debug_set_message_enable, debug_make_group_writable,
        debug_is_group_read_only, debug_push_group, getAtDepth, groupAtDepth,
        htop, hgn, self_eq_add_right]
    · simp only [applyMutation]
      simp [debug_set_message_enable_all, debug_make_group_writable,
        debug_is_group_read_only, debug_push_group, getAtDepth, groupAtDepth,
        htop, hgn, self_eq_add_right]
  · simp [debug_pop_group, debug_clear_group, debug_push_group]
  · simp [debug_pop_group, debug_clear_group, debug_push_group, groupAtDepth,
      htop, self_eq_add_right]

/-- Witness for C5 at the freshly created debug state. -/
theorem C5_witness :
    (debug_create.Groups debug_create.GroupStackDepth = some 0
      ∧ 0 < debug_create.nextGroupId)
    ∧ (getAtDepth
        (applyMutation true true (FilterMutation.set 0 0 7 false)
          (debug_push_group debug_create))
        debug_create.GroupStackDepth 0 0 7 2
      = getAtDepth (debug_push_group debug_create)
          debug_create.GroupStackDepth 0 0 7 2)
    ∧ groupAtDepth (debug_pop_group (debug_push_group debug_create))
        debug_create.GroupStackDepth
      = groupAtDepth debug_create debug_create.GroupStackDepth :=
  ⟨⟨by decide, by decide⟩,
   (C5_copy_on_write debug_create 0 (FilterMutation.set 0 0 7 false) 0 0 7 2
      (by decide) (by decide)).1,
   (C5_copy_on_write debug_create 0 (FilterMutation.set 0 0 7 false) 0 0 7 2
      (by decide) (by decide)).2.2⟩

theorem logMessages_length (cap : Nat) (log : GLDebugLog) :
    (logMessages cap log).length = log.NumMessages := by
  simp [logMessages]

theorem ring_index_ne (next i j cap : Nat) (hi : i < cap) (hj : j < cap)
    (hne : i ≠ j) : (next + i) % cap ≠ (next + j) % cap := by
  intro h
  have h1 : i % cap = j % cap := Nat.ModEq.add_left_cancel' next h
  rw [Nat.mod_eq_of_lt hi, Nat.mod_eq_of_lt hj] at h1
  exact hne h1

theorem logMessages_enqueue (cap : Nat) (log : GLDebugLog) (ids : IdState)
    (m : MsgIn) (hwf : LogWF cap log) (hlt : log.NumMessages < cap) :
    logMessages cap
        (debug_log_message cap true log ids m.source m.type m.id m.severity
          m.len m.buf).1
      = logMessages cap log ++ [storedOf m] := by
  obtain ⟨hnext, hnum⟩ := hwf
  simp only [debug_log_message]
  rw [if_neg (by omega)]
  simp only [logMessages, List.range_succ, List.map_append]
  congr 1
  · apply List.map_congr_left
    intro i hi
    have hi2 : i < log.NumMessages := List.mem_range.mp hi
    rw [if_neg (ring_index_ne log.NextMessage i log.NumMessages cap
      (by omega) hlt (by omega))]
  · simp [debug_message_store, storedOf]

theorem logMessages_enqueueAll (cap : Nat) (msgs : List MsgIn)
    (log : GLDebugLog) (ids : IdState) (hwf : LogWF cap log) :
    logMessages cap (enqueueAll cap msgs log ids).1
      = (logMessages cap log ++ msgs.map storedOf).take cap
    ∧ LogWF cap (enqueueAll cap msgs log ids).1 := by
  induction msgs generalizing log ids with
  | nil =>
      refine ⟨?_, hwf⟩
      simp only [enqueueAll, List.foldl_nil, List.map_nil, List.append_nil]
      rw [List.take_of_length_le (by rw [logMessages_length]; exact hwf.2)]
  | cons m rest ih =>
      by_cases hfull : log.NumMessages = cap
      · have hnoop : debug_log_message cap true log ids m.source m.type m.id
            m.severity m.len m.buf = (log, ids) := by
          simp [debug_log_message, hfull]
        have hstep : enqueueAll cap (m :: rest) log ids
            = enqueueAll cap rest log ids := by
          simp only [enqueueAll, List.foldl_cons, hnoop]
        rw [hstep]
        refine ⟨?_, (ih log ids hwf).2⟩
        rw [(ih log ids hwf).1]
        have hlen : (logMessages cap log).length = cap := by
          rw [logMessages_length, hfull]
        rw [List.take_append_eq_append_take, List.take_append_eq_append_take,
          hlen, Nat.sub_self, List.take_zero, List.take_zero]
      · have hlt : log.NumMessages < cap := by
          have h2 := hwf.2
          omega
        have happ := logMessages_enqueue cap log ids m hwf hlt
        have hwf2 : LogWF cap
            (debug_log_message cap true log ids m.source m.type m.id m.severity
              m.len m.buf).1 := by
          simp only [debug_log_message]
          rw [if_neg (by omega)]
          refine ⟨?_, ?_⟩
          · show log.NextMessage < cap
            exact hwf.1
          · show log.NumMessages + 1 ≤ cap
            omega
        have hstep : enqueueAll cap (m :: rest) log ids
            = enqueueAll cap rest
                (debug_log_message cap true log ids m.source m.type m.id
                  m.severity m.len m.buf).1
                (debug_log_message cap true log ids m.source m.type m.id
                  m.severity m.len m.buf).2 := by
          simp only [enqueueAll, List.foldl_cons]
        rw [hstep]
        obtain ⟨hl, hw⟩ := ih _ _ hwf2
        refine ⟨?_, hw⟩
        rw [hl, happ]
        simp [List.append_assoc]

theorem logMessages_delete_one (cap : Nat) (log : GLDebugLog)
    (hwf : LogWF cap log) (hnum : 0 < log.NumMessages) :
    logMessages cap
        { Messages := fun i =>
            if i = log.NextMessage then (debug_message_clear (log.Messages i)).2
            else log.Messages i,
          NextMessage := (log.NextMessage + 1) % cap,
          NumMessages := log.NumMessages - 1 }
      = (logMessages cap log).drop 1 := by
  obtain ⟨hnext, hnumle⟩ := hwf
  obtain ⟨k, hk⟩ : ∃ k, log.NumMessages = k + 1 := ⟨log.NumMessages - 1, by omega⟩
  simp only [logMessages, hk, Nat.add_sub_cancel]
  rw [List.range_succ_eq_map, List.map_cons, List.drop_succ_cons,
    List.drop_zero, List.map_map]
  apply List.map_congr_left
  intro i hi
  have hi2 : i < k := List.mem_range.mp hi
  simp only [Function.comp_apply]
  rw [Nat.mod_add_mod]
  have hne : (log.NextMessage + 1 + i) % cap ≠ log.NextMessage := by
    intro h
    have h0 : (log.NextMessage + (1 + i)) % cap = (log.NextMessage + 0) % cap := by
      rw [Nat.add_zero, Nat.mod_eq_of_lt hnext, ← Nat.add_assoc]
      exact h
    have h1 : (1 + i) % cap = 0 % cap := Nat.ModEq.add_left_cancel' _ h0
    rw [Nat.mod_eq_of_lt (by omega), Nat.zero_mod] at h1
    omega
  rw [if_neg hne]
  have harith : log.NextMessage + 1 + i = log.NextMessage + Nat.succ i := by
    omega
  rw [harith]

theorem logMessages_deleteLoop (cap : Nat) (j : Nat) (log : GLDebugLog)
    (hwf : LogWF cap log) (hj : j ≤ log.NumMessages) :
    logMessages cap (deleteLoop cap j log) = (logMessages cap log).drop j
    ∧ LogWF cap (deleteLoop cap j log) := by
  induction j generalizing log with
  | zero => exact ⟨by simp [deleteLoop], hwf⟩
  | succ n ih =>
      have hnum : 0 < log.NumMessages := by omega
      have hcap : 0 < cap := by
        have := hwf.2
        omega
      have hwf1 : LogWF cap
          { Messages := fun i =>
              if i = log.NextMessage then (debug_message_clear (log.Messages i)).2
              else log.Messages i,
            NextMessage := (log.NextMessage + 1) % cap,
            NumMessages := log.NumMessages - 1 } := by
        refine ⟨Nat.mod_lt _ hcap, ?_⟩
        show log.NumMessages - 1 ≤ cap
        have h2 := hwf.2
        omega
      have hstep := logMessages_delete_one cap log hwf hnum
      simp only [deleteLoop]
      obtain ⟨hl, hw⟩ := ih _ hwf1 (by
        show n ≤ log.NumMessages - 1
        omega)
      rw [hl, hstep, List.drop_drop]
      refine ⟨?_, hw⟩
      congr 1
      omega

theorem fetch_eq_head (cap : Nat) (log : GLDebugLog) (hwf : LogWF cap log) :
    debug_fetch_message log = (logMessages cap log).head? := by
  rcases hn : log.NumMessages with _ | k
  · simp [debug_fetch_message, logMessages, hn]
  · simp only [debug_fetch_message, logMessages, hn]
    rw [if_pos (by omega), List.range_succ_eq_map, List.map_cons,
      List.head?_cons, Nat.add_zero, Nat.mod_eq_of_lt hwf.1]

/-- C2 counterexample: with capacity 1 and two enqueued messages, the first
message is the one that stays retrievable and the second is dropped, so the
claim that the first k messages are permanently lost is false as stated. -/
theorem C2_counterexample :
    logMessages 1
        (enqueueAll 1 [(⟨0, 0, 0, 2, 0, []⟩ : MsgIn), ⟨0, 0, 1, 2, 0, []⟩]
          emptyLog ⟨1, 0⟩).1
      = [storedOf (⟨0, 0, 0, 2, 0, []⟩ : MsgIn)]
    ∧ storedOf (⟨0, 0, 0, 2, 0, []⟩ : MsgIn)
        ≠ storedOf (⟨0, 0, 1, 2, 0, []⟩ : MsgIn)
    ∧ debug_fetch_message
        (enqueueAll 1 [(⟨0, 0, 0, 2, 0, []⟩ : MsgIn), ⟨0, 0, 1, 2, 0, []⟩]
          emptyLog ⟨1, 0⟩).1
      = some (storedOf (⟨0, 0, 0, 2, 0, []⟩ : MsgIn)) :=
  ⟨by decide, by decide, by decide⟩

/-- C2 amended: enqueueing capacity + k (k at least 1) enabled messages
into an initially empty log with no callback leaves exactly the FIRST
capacity messages retrievable, in original FIFO order, and the LAST k
messages are permanently lost: every later drain state retrieves only a
suffix of the first capacity stored messages. -/
theorem C2_ring_buffer (cap k : Nat) (msgs : List MsgIn) (ids : IdState)
    (hcap : 0 < cap) (hk : 0 < k) (hlen : msgs.length = cap + k) :
    logMessages cap (enqueueAll cap msgs emptyLog ids).1
        = (msgs.take cap).map storedOf
    ∧ (∀ n, logMessages cap
          (debug_delete_messages cap n (enqueueAll cap msgs emptyLog ids).1)
        = ((msgs.take cap).map storedOf).drop n)
    ∧ debug_fetch_message (enqueueAll cap msgs emptyLog ids).1
        = ((msgs.take cap).map storedOf).head? := by
  have hwf0 : LogWF cap emptyLog := ⟨hcap, by simp [emptyLog]⟩
  obtain ⟨hlm, hwf⟩ := logMessages_enqueueAll cap msgs emptyLog ids hwf0
  have hempty : logMessages cap emptyLog = [] := by
    simp [logMessages, emptyLog]
  rw [hempty, List.nil_append] at hlm
  have htake : (msgs.map storedOf).take cap = (msgs.take cap).map storedOf :=
    (List.map_take storedOf msgs cap).symm
  rw [htake] at hlm
  have hlenfin : ((msgs.take cap).map storedOf).length = cap := by
    simp [List.length_take]
    omega
  have hNum : (enqueueAll cap msgs emptyLog ids).1.NumMessages = cap := by
    rw [← logMessages_length cap, hlm]
    exact hlenfin
  refine ⟨hlm, ?_, ?_⟩
  · intro n
    simp only [debug_delete_messages, hNum]
    obtain ⟨hdl, _⟩ := logMessages_deleteLoop cap (min n cap) _ hwf
      (by rw [hNum]; exact Nat.min_le_right n cap)
    rw [hdl, hlm]
    by_cases hn : n ≤ cap
    · rw [Nat.min_eq_left hn]
    · rw [Nat.min_eq_right (by omega),
        List.drop_eq_nil_of_le (by rw [hlenfin]),
        List.drop_eq_nil_of_le (by rw [hlenfin]; omega)]
  · rw [fetch_eq_head cap _ hwf, hlm]

/-- Witness for C2 at capacity 2 with three concrete messages. -/
theorem C2_witness :
    ((0 : Nat) < 2 ∧ (0 : Nat) < 1
      ∧ ([(⟨0, 0, 10, 2, 0, []⟩ : MsgIn), ⟨0, 0, 11, 2, 0, []⟩,
          ⟨0, 0, 12, 2, 0, []⟩].length : Nat) = 2 + 1)
    ∧ logMessages 2
        (enqueueAll 2 [(⟨0, 0, 10, 2, 0, []⟩ : MsgIn), ⟨0, 0, 11, 2, 0, []⟩,
          ⟨0, 0, 12, 2, 0, []⟩] emptyLog ⟨1, 0⟩).1
      = ([(⟨0, 0, 10, 2, 0, []⟩ : MsgIn), ⟨0, 0, 11, 2, 0, []⟩,
          ⟨0, 0, 12, 2, 0, []⟩].take 2).map storedOf :=
  ⟨⟨by decide, by decide, by decide⟩,
   (C2_ring_buffer 2 1
     [(⟨0, 0, 10, 2, 0, []⟩ : MsgIn), ⟨0, 0, 11, 2, 0, []⟩,
      ⟨0, 0, 12, 2, 0, []⟩]
     ⟨1, 0⟩ (by decide) (by decide) (by decide)).1⟩

theorem log_msg_preserves (cap : Nat) (aL : Bool) (s : DebugState)
    (ids : IdState) (source type id severity len : Nat) (buf : List Char) :
    (log_msg cap aL s ids source type id severity len buf).1.GroupMessages
        = s.GroupMessages
    ∧ (log_msg cap aL s ids source type id severity len buf).1.GroupStackDepth
        = s.GroupStackDepth := by
  simp only [log_msg]
  split_ifs <;> exact ⟨rfl, rfl⟩

theorem mesa_Push_fields (maxDepth maxMsgLen cap : Nat) (aL : Bool)
    (source id : Nat) (length : Int) (message : List Char) (s : DebugState)
    (ids : IdState)
    (hdepth : s.GroupStackDepth + 1 < maxDepth)
    (hsrc : source = MESA_DEBUG_SOURCE_APPLICATION ∨
        source = MESA_DEBUG_SOURCE_THIRD_PARTY)
    (hlen : (if length < 0 then cstrlen message else length.toNat) < maxMsgLen) :
    (mesa_PushDebugGroup maxDepth maxMsgLen cap true aL source id length
        message s ids).error = none
    ∧ (mesa_PushDebugGroup maxDepth maxMsgLen cap true aL source id length
        message s ids).events
        = [⟨source, MESA_DEBUG_TYPE_PUSH_GROUP, id,
            MESA_DEBUG_SEVERITY_NOTIFICATION,
            if length < 0 then cstrlen message else length.toNat, message⟩]
    ∧ (mesa_PushDebugGroup maxDepth maxMsgLen cap true aL source id length
        message s ids).state.GroupStackDepth = s.GroupStackDepth + 1
    ∧ (mesa_PushDebugGroup maxDepth maxMsgLen cap true aL source id length
        message s ids).state.GroupMessages s.GroupStackDepth
        = ⟨source, MESA_DEBUG_TYPE_PUSH_GROUP, id,
           MESA_DEBUG_SEVERITY_NOTIFICATION,
           (if length < 0 then cstrlen message else length.toNat) + 1,
           MessageRef.owned (strncpyList message
             (if length < 0 then cstrlen message else length.toNat)
             ++ [nulChar])⟩ := by
  have h1 : ¬(maxDepth - 1 ≤ s.GroupStackDepth) := by omega
  have hd : (source = MESA_DEBUG_SOURCE_APPLICATION ∨
      source = MESA_DEBUG_SOURCE_THIRD_PARTY : Bool) = true :=
    decide_eq_true hsrc
  have h2 : ¬((!(source = MESA_DEBUG_SOURCE_APPLICATION ∨
      source = MESA_DEBUG_SOURCE_THIRD_PARTY : Bool)) = true) := by
    rw [hd]
    simp
  have h3 : ¬(maxMsgLen ≤
      (if length < 0 then cstrlen message else length.toNat)) :=
    Nat.not_le.mpr hlen
  simp only [mesa_PushDebugGroup]
  rw [if_neg h1, if_neg h2, if_neg h3]
  refine ⟨rfl, rfl, ?_, ?_⟩
  · simp only [debug_push_group]
    rw [(log_msg_preserves cap aL s ids source MESA_DEBUG_TYPE_PUSH_GROUP id
      MESA_DEBUG_SEVERITY_NOTIFICATION _ message).2]
  · simp only [debug_push_group]
    rw [(log_msg_preserves cap aL s ids source MESA_DEBUG_TYPE_PUSH_GROUP id
      MESA_DEBUG_SEVERITY_NOTIFICATION _ message).2]
    rw [if_pos rfl]
    simp [debug_message_store]

theorem mesa_Pop_fields (cap : Nat) (aL2 : Bool) (s2 : DebugState)
    (ids2 : IdState) (hdep : s2.GroupStackDepth ≠ 0) :
    (mesa_PopDebugGroup cap aL2 s2 ids2).error = none
    ∧ (mesa_PopDebugGroup cap aL2 s2 ids2).events
        = [⟨(s2.GroupMessages (s2.GroupStackDepth - 1)).source,
            MESA_DEBUG_TYPE_POP_GROUP,
            (s2.GroupMessages (s2.GroupStackDepth - 1)).id,
            MESA_DEBUG_SEVERITY_NOTIFICATION,
            (s2.GroupMessages (s2.GroupStackDepth - 1)).length,
            bufOf (s2.GroupMessages (s2.GroupStackDepth - 1)).message⟩] := by
  simp only [mesa_PopDebugGroup]
  rw [if_neg hdep]
  exact ⟨rfl, rfl⟩

/-- C3 counterexample: a concrete push of id 7 with a one character text
followed immediately by a pop. The two dispatch events carry the same id,
but the pop event reports length 2 where the push event reported length 1
and its buffer carries the stored copy with the terminator appended, so the
events do not differ only in category and do not carry identical texts. -/
theorem C3_counterexample :
    (mesa_PushDebugGroup 64 4096 10 true true 4 7 1 [Char.ofNat 65]
        debug_create ⟨1, 0⟩).events
      = [⟨4, 7, 7, 3, 1, [Char.ofNat 65]⟩]
    ∧ (mesa_PopDebugGroup 10 true
        (mesa_PushDebugGroup 64 4096 10 true true 4 7 1 [Char.ofNat 65]
          debug_create ⟨1, 0⟩).state
        (mesa_PushDebugGroup 64 4096 10 true true 4 7 1 [Char.ofNat 65]
          debug_create ⟨1, 0⟩).ids).events
      = [⟨4, 8, 7, 3, 2, [Char.ofNat 65, Char.ofNat 0]⟩]
    ∧ (DispatchEvent.mk 4 7 7 3 1 [Char.ofNat 65]).id
        = (DispatchEvent.mk 4 8 7 3 2 [Char.ofNat 65, Char.ofNat 0]).id
    ∧ ¬((DispatchEvent.mk 4 7 7 3 1 [Char.ofNat 65]).len
          = (DispatchEvent.mk 4 8 7 3 2 [Char.ofNat 65, Char.ofNat 0]).len
        ∧ (DispatchEvent.mk 4 7 7 3 1 [Char.ofNat 65]).buf
          = (DispatchEvent.mk 4 8 7 3 2 [Char.ofNat 65, Char.ofNat 0]).buf) :=
  ⟨by decide, by decide, by decide, by decide⟩

/-- C3 amended: a valid push_group followed immediately by pop_group emits
exactly one dispatch event each; the two events carry the same id, source
and severity and the categories push-group and pop-group, and the pop event
carries the stored null-terminated copy of the push text with its length
one greater than the push length, the terminator included. -/
theorem C3_push_pop_amended (maxDepth maxMsgLen cap : Nat) (aL aL2 : Bool)
    (source id : Nat) (length : Int) (message : List Char) (s : DebugState)
    (ids : IdState)
    (hdepth : s.GroupStackDepth + 1 < maxDepth)
    (hsrc : source = MESA_DEBUG_SOURCE_APPLICATION ∨
        source = MESA_DEBUG_SOURCE_THIRD_PARTY)
    (hlen : (if length < 0 then cstrlen message else length.toNat) < maxMsgLen) :
    (mesa_PushDebugGroup maxDepth maxMsgLen cap true aL source id length
        message s ids).error = none
    ∧ (mesa_PopDebugGroup cap aL2
        (mesa_PushDebugGroup maxDepth maxMsgLen cap true aL source id length
          message s ids).state
        (mesa_PushDebugGroup maxDepth maxMsgLen cap true aL source id length
          message s ids).ids).error = none
    ∧ (mesa_PushDebugGroup maxDepth maxMsgLen cap true aL source id length
        message s ids).events
        = [⟨source, MESA_DEBUG_TYPE_PUSH_GROUP, id,
            MESA_DEBUG_SEVERITY_NOTIFICATION,
            if length < 0 then cstrlen message else length.toNat, message⟩]
    ∧ (mesa_PopDebugGroup cap aL2
        (mesa_PushDebugGroup maxDepth maxMsgLen cap true aL source id length
          message s ids).state
        (mesa_PushDebugGroup maxDepth maxMsgLen cap true aL source id length
          message s ids).ids).events
        = [⟨source, MESA_DEBUG_TYPE_POP_GROUP, id,
            MESA_DEBUG_SEVERITY_NOTIFICATION,
            (if length < 0 then cstrlen message else length.toNat) + 1,
            strncpyList message
              (if length < 0 then cstrlen message else length.toNat)
              ++ [nulChar]⟩] := by
  obtain ⟨herr, hev, hdep2, hgm⟩ :=
    mesa_Push_fields maxDepth maxMsgLen cap aL source id length message s ids
      hdepth hsrc hlen
  have hne : (mesa_PushDebugGroup maxDepth maxMsgLen cap true aL source id
      length message s ids).state.GroupStackDepth ≠ 0 := by
    omega
  obtain ⟨perr, pev⟩ := mesa_Pop_fields cap aL2
    (mesa_PushDebugGroup maxDepth maxMsgLen cap true aL source id length
      message s ids).state
    (mesa_PushDebugGroup maxDepth maxMsgLen cap true aL source id length
      message s ids).ids hne
  refine ⟨herr, perr, hev, ?_⟩
  rw [pev, hdep2]
  have hsub : s.GroupStackDepth + 1 - 1 = s.GroupStackDepth := by omega
  rw [hsub, hgm]
  rfl

/-- Witness for the amended C3 at a concrete push and pop pair. -/
theorem C3_witness :
    (debug_create.GroupStackDepth + 1 < 64
      ∧ ((4 : Nat) = MESA_DEBUG_SOURCE_APPLICATION ∨
          (4 : Nat) = MESA_DEBUG_SOURCE_THIRD_PARTY)
      ∧ (if (7 : Int) < 0 then cstrlen [Char.ofNat 97] else (7 : Int).toNat)
          < 4096)
    ∧ (mesa_PopDebugGroup 10 true
        (mesa_PushDebugGroup 64 4096 10 true true 4 9 7 [Char.ofNat 97]
          debug_create ⟨1, 0⟩).state
        (mesa_PushDebugGroup 64 4096 10 true true 4 9 7 [Char.ofNat 97]
          debug_create ⟨1, 0⟩).ids).events
      = [⟨4, MESA_DEBUG_TYPE_POP_GROUP, 9, MESA_DEBUG_SEVERITY_NOTIFICATION,
          (if (7 : Int) < 0 then cstrlen [Char.ofNat 97] else (7 : Int).toNat)
            + 1,
          strncpyList [Char.ofNat 97]
            (if (7 : Int) < 0 then cstrlen [Char.ofNat 97] else (7 : Int).toNat)
            ++ [nulChar]⟩] :=
  ⟨⟨by decide, Or.inl rfl, by decide⟩,
   (C3_push_pop_amended 64 4096 10 true true 4 9 7 [Char.ofNat 97]
     debug_create ⟨1, 0⟩ (by decide) (Or.inl rfl) (by decide)).2.2.2⟩

end MesaDebug




